import Mathlib

/-!
Verification of the pizza-wars game engine (src/bot/game.py, src/bot/main.py).

Shallow embedding conventions:
* Python floats for money/timestamps are modelled as exact rationals.
* The database load/save cycle is modelled by explicit state passing: every
  engine operation is a pure function from a PlayerState to a PlayerState
  (the state it persists) plus its returned values.
* time.time() and the random source are injected as explicit parameters
  (a clock value, boolean dice for the probabilistic rolls, a rational for
  random.uniform draws, a template id for random.choice).
* Python dicts that are iterated are modelled as association lists in
  insertion order; a key-to-bool progress dict is modelled as the list of
  keys holding True.
* The per-location performance multiplier table is a parameter
  perf : String -> rationals, read through get_current_performance_multiplier.
-/

namespace PizzaWars

/-- Python int() applied to a float: truncation toward zero. -/
def pyInt (x : ℚ) : ℤ := if 0 ≤ x then ⌊x⌋ else -⌊-x⌋

/-- Round half to even at integer precision, the semantics of Python round. -/
def roundHalfEven (x : ℚ) : ℤ :=
  if x - ⌊x⌋ < 1/2 then ⌊x⌋
  else if 1/2 < x - ⌊x⌋ then ⌊x⌋ + 1
  else if ⌊x⌋ % 2 = 0 then ⌊x⌋ else ⌊x⌋ + 1

/-- Python round(x, 2): round half to even at two decimal places. -/
def round2 (x : ℚ) : ℚ := (roundHalfEven (100 * x) : ℚ) / 100

/-- Whether the first list occurs contiguously inside the second. -/
def listInfix (needle haystack : List Char) : Bool :=
  match haystack with
  | [] => needle.isEmpty
  | _ :: t => needle.isPrefixOf haystack || listInfix needle t

/-- Python substring containment test, needle in haystack. -/
def strContains (needle haystack : String) : Bool :=
  listInfix needle.toList haystack.toList

/-! Game constants from src/bot/game.py. -/

def INITIAL_CASH : ℚ := 10
def INITIAL_SHOP_NAME : String := "Brooklyn"
def BASE_INCOME_PER_SECOND : ℚ := 1/10
def BASE_UPGRADE_COST : ℚ := 75
def UPGRADE_COST_MULTIPLIER : ℚ := 7/4
def BASE_EXPANSION_COST : ℚ := 1000
def SABOTAGE_BASE_COST : ℚ := 1000
def SABOTAGE_PCT_COST : ℚ := 1/20
def SABOTAGE_DURATION_SECONDS : ℚ := 3600
def SABOTAGE_COOLDOWN_SECONDS : ℚ := 900

/-- One positional entry of an EXPANSION_LOCATIONS tuple: a string or a number.
The code indexes these tuples positionally, so we keep the raw tuple layout. -/
inductive TupVal
  | s (v : String)
  | q (v : ℚ)
deriving DecidableEq

/-- Element at index i read as a number; 1.0 is the code fallback when the
index is absent (the code guards on tuple length before indexing). -/
def tupQ (l : List TupVal) (i : ℕ) : ℚ :=
  match l.get? i with
  | some (.q v) => v
  | _ => 1

/-- Element at index i read as a string; empty when absent or numeric. -/
def tupS (l : List TupVal) (i : ℕ) : String :=
  match l.get? i with
  | some (.s v) => v
  | _ => ""

/-- EXPANSION_LOCATIONS: Location -> (Req Type, Req Val, GDP Factor, Cost
Scale Factor), with the shop_level entries carrying an extra level value,
exactly as the Python tuples are laid out. -/
def EXPANSION_LOCATIONS : List (String × List TupVal) := [
  ("Manhattan",      [.s "level", .q 5, .q (3/2), .q (3/2)]),
  ("Queens",         [.s "level", .q 10, .q (6/5), .q (6/5)]),
  ("Philadelphia",   [.s "level", .q 15, .q (9/5), .q (9/5)]),
  ("Albany",         [.s "total_income", .q 25000, .q (7/5), .q (3/2)]),
  ("Chicago",        [.s "shops_count", .q 5, .q (5/2), .q (5/2)]),
  ("Los Angeles",    [.s "shop_level", .s "Manhattan", .q 10, .q 3, .q 3]),
  ("Miami",          [.s "shop_level", .s "Philadelphia", .q 10, .q (11/5), .q (14/5)]),
  ("London",         [.s "total_income", .q 100000, .q (7/2), .q 4]),
  ("Paris",          [.s "has_shop", .s "London", .q (16/5), .q (19/5)]),
  ("Rome",           [.s "has_shop", .s "Paris", .q 5, .q 3, .q (7/2)]),
  ("Tokyo",          [.s "total_income", .q 500000, .q 5, .q 6]),
  ("Beijing",        [.s "has_shop", .s "Tokyo", .q (9/2), .q (11/2)]),
  ("Dubai",          [.s "has_shop", .s "Chicago", .q (24/5), .q (13/2)]),
  ("Mexico City",    [.s "shops_count", .q 7, .q 2, .q 2]),
  ("Rio de Janeiro", [.s "has_shop", .s "Mexico City", .q (9/5), .q (11/5)]),
  ("Sydney",         [.s "total_income", .q 250000, .q (14/5), .q (7/2)])]

/-- Membership test and lookup of a location tuple. -/
def lookupLoc (name : String) : Option (List TupVal) :=
  (EXPANSION_LOCATIONS.find? (fun p => p.1 == name)).map Prod.snd

/-- A static achievement definition, one row of ACHIEVEMENTS. -/
structure AchievementDef where
  id : String
  name : String
  desc : String
  metric_args : List String
  req : ℚ
  reward_type : String
  reward_value : ℤ
  title : Option String
deriving DecidableEq

/-- ACHIEVEMENTS: ID -> (Name, Description, Check Function Args, Requirement,
Reward Type, Reward Value, Title Awarded), in dict insertion order. -/
def ACHIEVEMENTS : List AchievementDef := [
  ⟨"income_1k", "Pizza Mogul", "Earn $1,000 total", ["total_income_earned"], 1000, "cash", 100, some "Mogul"⟩,
  ⟨"income_10k", "Pizza Tycoon", "Earn $10,000 total", ["total_income_earned"], 10000, "pizza_coins", 50, some "Tycoon"⟩,
  ⟨"income_100k", "Pizza Baron", "Earn $100,000 total", ["total_income_earned"], 100000, "pizza_coins", 250, some "Baron"⟩,
  ⟨"income_1m", "Pizza Magnate", "Earn $1,000,000 total", ["total_income_earned"], 1000000, "pizza_coins", 1000, some "Magnate"⟩,
  ⟨"shops_3", "City Spreader", "Own 3 shops", ["shops_count"], 3, "cash", 500, some "City Spreader"⟩,
  ⟨"shops_5", "Empire Builder", "Own 5 shops", ["shops_count"], 5, "pizza_coins", 100, some "Empire Builder"⟩,
  ⟨"brooklyn_10", "Brooklyn Boss", "Upgrade Brooklyn to Level 10", ["shop_level", "Brooklyn"], 10, "cash", 2000, some "Brooklyn Boss"⟩,
  ⟨"manhattan_5", "Manhattan Maven", "Upgrade Manhattan to Level 5", ["shop_level", "Manhattan"], 5, "pizza_coins", 25, some "Manhattan Maven"⟩,
  ⟨"first_expansion", "Branching Out", "Open your second shop", ["shops_count"], 2, "cash", 250, none⟩,
  ⟨"statewide", "Empire State of Mind", "Expand to Albany", ["has_shop", "Albany"], 1, "pizza_coins", 75, none⟩,
  ⟨"london_calling", "London Calling", "Expand to London", ["has_shop", "London"], 1, "pizza_coins", 150, some "Globetrotter"⟩,
  ⟨"asia_expansion", "Taste of the East", "Expand to Tokyo", ["has_shop", "Tokyo"], 1, "pizza_coins", 200, none⟩,
  ⟨"la_la_land", "La La Land", "Expand to Los Angeles", ["has_shop", "Los Angeles"], 1, "pizza_coins", 100, some "West Coast Boss"⟩,
  ⟨"roman_holiday", "Roman Holiday", "Expand to Rome", ["has_shop", "Rome"], 1, "pizza_coins", 125, none⟩]

/-- A static challenge template, one row of CHALLENGE_TYPES (the description
format template is presentation only and is not modelled). -/
structure ChallengeTemplate where
  id : String
  metric : String
  base_goal : ℚ
  goal_mult : ℚ
  reward_type : String
  base_reward : ℚ
  reward_mult : ℚ
deriving DecidableEq

/-- CHALLENGE_TYPES: Type -> (Metric, Base Goal, Goal Increase Per Level,
Reward Type, Base Reward, Reward Increase Per Level). -/
def CHALLENGE_TYPES : List ChallengeTemplate := [
  ⟨"earn_cash", "session_income", 100, 3/2, "cash", 50, 3/2⟩,
  ⟨"upgrade_shops", "session_upgrades", 1, 6/5, "pizza_coins", 10, 13/10⟩,
  ⟨"collect_times", "session_collects", 3, 11/10, "cash", 20, 6/5⟩,
  ⟨"expand_shops", "session_expansions", 1, 11/10, "pizza_coins", 50, 7/5⟩]

/-! Player data model (the record of the players table as loaded by
load_player_data, restricted to the fields the engine operations touch). -/

/-- One owned shop, keyed by its location name in PlayerState.shops. -/
structure Shop where
  custom_name : String
  level : ℕ
  last_collected_time : ℚ
  shutdown_until : Option ℚ
deriving DecidableEq

/-- The session stat counters in player_data stats. -/
structure Stats where
  session_income : ℚ
  session_upgrades : ℕ
  session_collects : ℕ
  session_expansions : ℕ
deriving DecidableEq

/-- An active challenge instance as built by generate_new_challenges
(description text dropped: it is formatting of goal and timescale). -/
structure Challenge where
  id : String
  ctype : String
  metric : String
  goal : ℤ
  reward_type : String
  reward_value : ℤ
deriving DecidableEq

/-- The two challenge timescales. -/
inductive Timescale
  | daily
  | weekly
deriving DecidableEq

/-- The timescale key strings used in challenge ids. -/
def tsName : Timescale → String
  | .daily => "daily"
  | .weekly => "weekly"

/-- The mutable player record. challenge_progress maps are modelled by the
list of challenge ids marked True. -/
structure PlayerState where
  cash : ℚ
  pizza_coins : ℤ
  shops : List (String × Shop)
  unlocked_achievements : List String
  current_title : Option String
  daily_challenge : Option Challenge
  weekly_challenge : Option Challenge
  daily_progress : List String
  weekly_progress : List String
  stats : Stats
  total_income_earned : ℚ
  collection_count : ℕ
  last_sabotage_attempt_time : ℚ
deriving DecidableEq

/-- The active challenge slot for a timescale. -/
def activeChallenge (st : PlayerState) : Timescale → Option Challenge
  | .daily => st.daily_challenge
  | .weekly => st.weekly_challenge

/-- The completed-id list for a timescale. -/
def progressOf (st : PlayerState) : Timescale → List String
  | .daily => st.daily_progress
  | .weekly => st.weekly_progress

/-- stats.get(metric, 0) on the session stat dict. -/
def statGet (s : Stats) (metric : String) : ℚ :=
  if metric = "session_income" then s.session_income
  else if metric = "session_upgrades" then s.session_upgrades
  else if metric = "session_collects" then s.session_collects
  else if metric = "session_expansions" then s.session_expansions
  else 0

/-- shops dict lookup. -/
def lookupShop (shops : List (String × Shop)) (name : String) : Option Shop :=
  (shops.find? (fun p => p.1 == name)).map Prod.snd

/-- name in shops. -/
def owns (st : PlayerState) (name : String) : Bool :=
  (lookupShop st.shops name).isSome

/-- get_default_player_state: the starter record (identity and login fields
dropped; now is the creation instant). -/
def get_default_player_state (now : ℚ) : PlayerState where
  cash := INITIAL_CASH
  pizza_coins := 0
  shops := [(INITIAL_SHOP_NAME,
    { custom_name := INITIAL_SHOP_NAME, level := 1,
      last_collected_time := now, shutdown_until := none })]
  unlocked_achievements := []
  current_title := none
  daily_challenge := none
  weekly_challenge := none
  daily_progress := []
  weekly_progress := []
  stats := ⟨0, 0, 0, 0⟩
  total_income_earned := 0
  collection_count := 0
  last_sabotage_attempt_time := 0

/-! Income calculation (game.py lines 412-466). -/

/-- get_current_performance_multiplier: 1.0 for the base location, otherwise
the location_performance table value, supplied as the parameter perf. -/
def get_current_performance_multiplier (perf : String → ℚ) (name : String) : ℚ :=
  if name = INITIAL_SHOP_NAME then 1 else perf name

/-- The base GDP factor read from EXPANSION_LOCATIONS index 2 (1.0 for the
initial shop and for unknown or short tuples). -/
def base_gdp_factor (shop_name : String) : ℚ :=
  if shop_name ≠ INITIAL_SHOP_NAME then
    match lookupLoc shop_name with
    | some l => if 2 < l.length then tupQ l 2 else 1
    | none => 1
  else 1

/-- get_shop_income_rate: base income times level times GDP factor times the
current performance multiplier. -/
def get_shop_income_rate (perf : String → ℚ) (shop_name : String) (level : ℕ) : ℚ :=
  (BASE_INCOME_PER_SECOND * level * base_gdp_factor shop_name)
    * get_current_performance_multiplier perf shop_name

/-- The clipped active earning duration of one shop inside
calculate_uncollected_income. The shutdown_until value follows Python
truthiness: None and 0.0 are both falsy. -/
def shop_active_duration (current_time : ℚ) (sh : Shop) : ℚ :=
  let last_collected := sh.last_collected_time
  let effective_start_time :=
    match sh.shutdown_until with
    | some s => if s ≠ 0 ∧ last_collected < s then max last_collected s else last_collected
    | none => last_collected
  let effective_end_time :=
    match sh.shutdown_until with
    | some s => if s ≠ 0 ∧ effective_start_time < s then min current_time s else current_time
    | none => current_time
  max 0 (effective_end_time - effective_start_time)

/-- One shop's contribution step of the calculate_uncollected_income loop
(income is added only when the active duration is positive). -/
def incomeStep (current_time : ℚ) (perf : String → ℚ) (acc : ℚ) (ns : String × Shop) : ℚ :=
  if 0 < shop_active_duration current_time ns.2 then
    acc + get_shop_income_rate perf ns.1 ns.2.level * shop_active_duration current_time ns.2
  else acc

/-- calculate_uncollected_income: sum of rate times active duration over the
owned shops. -/
def calculate_uncollected_income (current_time : ℚ) (perf : String → ℚ)
    (shops : List (String × Shop)) : ℚ :=
  shops.foldl (incomeStep current_time perf) 0

/-! Challenge progress (game.py lines 800-840). Completion messages are
modelled by the completed challenge ids (the text is formatting). -/

/-- The reward grant inside update_challenge_progress. -/
def grantReward (ch : Challenge) (st : PlayerState) : PlayerState :=
  if ch.reward_type = "cash" then { st with cash := st.cash + ch.reward_value }
  else if ch.reward_type = "pizza_coins" then
    { st with pizza_coins := st.pizza_coins + ch.reward_value }
  else st

/-- challenge_progress.setdefault(timescale, dict())[challenge_id] = True. -/
def markCompleted (ts : Timescale) (cid : String) (st : PlayerState) : PlayerState :=
  match ts with
  | .daily => { st with daily_progress := st.daily_progress ++ [cid] }
  | .weekly => { st with weekly_progress := st.weekly_progress ++ [cid] }

/-- One iteration of the update_challenge_progress loop, for one timescale. -/
def update_ts (updated_metrics : List String) (ts : Timescale)
    (st : PlayerState) (msgs : List String) : PlayerState × List String :=
  match activeChallenge st ts with
  | none => (st, msgs)
  | some ch =>
    if ch.metric ∈ updated_metrics then
      if ch.id ∈ progressOf st ts then (st, msgs)
      else if (ch.goal : ℚ) ≤ statGet st.stats ch.metric then
        (markCompleted ts ch.id (grantReward ch st), msgs ++ [ch.id])
      else (st, msgs)
    else (st, msgs)

/-- update_challenge_progress: iterate the active_challenges dict in
insertion order (daily then weekly), granting each completed challenge its
reward and marking its id completed. -/
def update_challenge_progress (st : PlayerState) (updated_metrics : List String) :
    PlayerState × List String :=
  let r := update_ts updated_metrics .daily st []
  update_ts updated_metrics .weekly r.1 r.2

/-! Income collection (game.py lines 468-521). -/

/-- The return shape of collect_income, with the state it persisted. -/
structure CollectResult where
  state : PlayerState
  amount : ℚ
  completed : List String
  is_mafia_event : Bool
  mafia_demand : Option ℚ
deriving DecidableEq

/-- collect_income. now is the time.time() reading; demand_percentage is the
random.uniform(0.10, 0.75) draw used only when the mafia event triggers. -/
def collect_income (now : ℚ) (perf : String → ℚ) (demand_percentage : ℚ)
    (st : PlayerState) : CollectResult :=
  let uncollected := calculate_uncollected_income now perf st.shops
  if 1/100 < uncollected then
    let shops1 := st.shops.map (fun ns => (ns.1, { ns.2 with last_collected_time := now }))
    let collection_count := st.collection_count + 1
    let st1 := { st with shops := shops1, collection_count := collection_count }
    if 0 < collection_count ∧ collection_count % 5 = 0 then
      { state := st1, amount := uncollected, completed := [], is_mafia_event := true,
        mafia_demand := some (round2 (uncollected * demand_percentage)) }
    else
      let st2 := { st1 with
        cash := st1.cash + uncollected,
        total_income_earned := st1.total_income_earned + uncollected,
        stats := { st1.stats with
          session_income := st1.stats.session_income + uncollected,
          session_collects := st1.stats.session_collects + 1 } }
      let r := update_challenge_progress st2 ["session_income", "session_collects"]
      { state := r.1, amount := uncollected, completed := r.2,
        is_mafia_event := false, mafia_demand := none }
  else
    { state := st, amount := 0, completed := [], is_mafia_event := false, mafia_demand := none }

/-! Upgrade economy (game.py lines 540-602). -/

/-- The location cost scale read from EXPANSION_LOCATIONS index 3. -/
def location_cost_scale (shop_name : String) : ℚ :=
  if shop_name ≠ INITIAL_SHOP_NAME then
    match lookupLoc shop_name with
    | some l => if 3 < l.length then tupQ l 3 else 1
    | none => 1
  else 1

/-- get_upgrade_cost: scaled base cost times the growth multiplier to the
power level - 1, rounded to cents. -/
def get_upgrade_cost (current_level : ℕ) (shop_name : String) : ℚ :=
  round2 ((BASE_UPGRADE_COST * location_cost_scale shop_name)
    * UPGRADE_COST_MULTIPLIER ^ ((current_level : ℤ) - 1))

/-- The outcome variants of upgrade_shop. -/
inductive UpgradeOutcome
  | notOwned
  | insufficientFunds (cost : ℚ)
  | failed (cost : ℚ)
  | success (new_level : ℕ)
deriving DecidableEq

/-- Set the level of one shop in the shops dict. -/
def setShopLevel (shops : List (String × Shop)) (name : String) (lvl : ℕ) :
    List (String × Shop) :=
  shops.map (fun p => if p.1 = name then (p.1, { p.2 with level := lvl }) else p)

/-- upgrade_shop. fail_roll models random.random() < UPGRADE_FAILURE_CHANCE. -/
def upgrade_shop (fail_roll : Bool) (st : PlayerState) (shop_name : String) :
    UpgradeOutcome × PlayerState :=
  match lookupShop st.shops shop_name with
  | none => (.notOwned, st)
  | some sh =>
    let cost := get_upgrade_cost sh.level shop_name
    if st.cash < cost then (.insufficientFunds cost, st)
    else
      let st1 := { st with cash := st.cash - cost }
      if fail_roll then (.failed cost, st1)
      else
        let new_level := sh.level + 1
        let st2 := { st1 with
          shops := setShopLevel st1.shops shop_name new_level,
          stats := { st1.stats with session_upgrades := st1.stats.session_upgrades + 1 } }
        let r := update_challenge_progress st2 ["session_upgrades"]
        (.success new_level, r.1)

/-! Expansion economy (game.py lines 525-538 and 604-698). -/

/-- get_expansion_cost: base expansion cost times the location cost scale. -/
def get_expansion_cost (shop_name : String) : ℚ :=
  let cost_scale : ℚ :=
    match lookupLoc shop_name with
    | some l => if 3 < l.length then tupQ l 3 else 1
    | none => 1
  round2 (BASE_EXPANSION_COST * cost_scale)

/-- The requirement evaluation inside get_available_expansions for one
location tuple. -/
def requirement_met (st : PlayerState) (l : List TupVal) : Bool :=
  let initial_shop_level : ℕ :=
    match lookupShop st.shops INITIAL_SHOP_NAME with
    | some sh => sh.level
    | none => 1
  let req_type := tupS l 0
  if req_type = "level" then decide (tupQ l 1 ≤ (initial_shop_level : ℚ))
  else if req_type = "shop_level" then
    let current_shop_level : ℚ :=
      match lookupShop st.shops (tupS l 1) with
      | some sh => (sh.level : ℚ)
      | none => 0
    decide (tupQ l 2 ≤ current_shop_level)
  else if req_type = "total_income" then decide (tupQ l 1 ≤ st.total_income_earned)
  else if req_type = "shops_count" then decide (tupQ l 1 ≤ (st.shops.length : ℚ))
  else if req_type = "has_shop" then owns st (tupS l 1)
  else false

/-- get_available_expansions: locations not yet owned whose requirement is
met, in catalog order. -/
def get_available_expansions (st : PlayerState) : List String :=
  (EXPANSION_LOCATIONS.filter (fun p => !(owns st p.1) && requirement_met st p.2)).map Prod.fst

/-- The outcome variants of expand_shop. -/
inductive ExpandOutcome
  | invalidLocation
  | alreadyOwned
  | requirementNotMet
  | insufficientFunds (cost : ℚ)
  | success (cost : ℚ)
deriving DecidableEq

/-- expand_shop. -/
def expand_shop (now : ℚ) (st : PlayerState) (expansion_name : String) :
    ExpandOutcome × PlayerState :=
  if (lookupLoc expansion_name).isNone then (.invalidLocation, st)
  else if owns st expansion_name then (.alreadyOwned, st)
  else if expansion_name ∉ get_available_expansions st then (.requirementNotMet, st)
  else
    let cost := get_expansion_cost expansion_name
    if st.cash < cost then (.insufficientFunds cost, st)
    else
      let st1 := { st with
        cash := st.cash - cost,
        shops := st.shops ++ [(expansion_name,
          { custom_name := expansion_name, level := 1,
            last_collected_time := now, shutdown_until := none })],
        stats := { st.stats with session_expansions := st.stats.session_expansions + 1 } }
      let r := update_challenge_progress st1 ["session_expansions"]
      (.success cost, r.1)

/-! Achievements (game.py lines 700-746). -/

/-- get_achievement_value. -/
def get_achievement_value (st : PlayerState) (metric_args : List String) : ℚ :=
  let metric := metric_args.headD ""
  if metric = "total_income_earned" then st.total_income_earned
  else if metric = "shops_count" then (st.shops.length : ℚ)
  else if metric = "shop_level" then
    match lookupShop st.shops (metric_args.getD 1 "") with
    | some sh => (sh.level : ℚ)
    | none => 0
  else if metric = "has_shop" then
    if owns st (metric_args.getD 1 "") then 1 else 0
  else 0

/-- The loop accumulator of check_achievements: the grown unlocked list, the
newly unlocked (name, description, title) triples, and the last new title. -/
structure AchAcc where
  unlocked : List String
  newly : List (String × String × Option String)
  highest_new_title : Option String

/-- check_achievements: unlock every definition whose metric meets its
requirement, equip the last new title, and persist. Note the reward_type and
reward_value columns of ACHIEVEMENTS are destructured into throwaway
variables and never applied to the balances. -/
def check_achievements (st : PlayerState) :
    PlayerState × List (String × String × Option String) :=
  let r := ACHIEVEMENTS.foldl (fun (acc : AchAcc) a =>
    if a.id ∈ acc.unlocked then acc
    else if a.req ≤ get_achievement_value st a.metric_args then
      { unlocked := acc.unlocked ++ [a.id],
        newly := acc.newly ++ [(a.name, a.desc, a.title)],
        highest_new_title :=
          match a.title with
          | some t => some t
          | none => acc.highest_new_title }
    else acc)
    ⟨st.unlocked_achievements, [], none⟩
  if r.newly ≠ [] then
    ({ st with
        unlocked_achievements := r.unlocked,
        current_title :=
          match r.highest_new_title with
          | some t => some t
          | none => st.current_title }, r.newly)
  else (st, [])

/-! Challenge generation (game.py lines 750-798). -/

/-- The goal floors applied after scaling in generate_new_challenges. The
membership tests are Python substring tests on the metric name. -/
def apply_goal_floor (metric : String) (goal : ℤ) : ℤ :=
  let g1 := if strContains "cash" metric ∧ goal < 100 then 100 else goal
  let g2 := if strContains "upgrade" metric ∧ g1 < 1 then 1 else g1
  if strContains "collect" metric ∧ g2 < 2 then 2 else g2

/-- generate_new_challenges. challenge_type_id is the random.choice draw
over the CHALLENGE_TYPES keys; an id not in the table cannot be drawn and is
a no-op here. -/
def generate_new_challenges (now : ℚ) (challenge_type_id : String)
    (st : PlayerState) (ts : Timescale) : PlayerState :=
  match CHALLENGE_TYPES.find? (fun t => t.id == challenge_type_id) with
  | none => st
  | some t =>
    let player_level := st.unlocked_achievements.length
    let goal := apply_goal_floor t.metric (pyInt (t.base_goal * t.goal_mult ^ player_level))
    let reward_value := pyInt (t.base_reward * t.reward_mult ^ player_level)
    let ch : Challenge :=
      { id := tsName ts ++ "_" ++ t.id ++ "_" ++ toString (pyInt now),
        ctype := t.id, metric := t.metric, goal := goal,
        reward_type := t.reward_type, reward_value := reward_value }
    let st1 :=
      match ts with
      | .daily => { st with daily_challenge := some ch, daily_progress := [] }
      | .weekly => { st with weekly_challenge := some ch, weekly_progress := [] }
    { st1 with stats := ⟨0, 0, 0, 0⟩ }

/-! Premium currency credit (game.py lines 973-983). -/

/-- credit_pizza_coins. -/
def credit_pizza_coins (amount : ℤ) (st : PlayerState) : PlayerState :=
  if amount ≤ 0 then st
  else { st with pizza_coins := st.pizza_coins + amount }

/-! Sabotage helpers (game.py lines 1132-1170) and the resolution state
machine (main.py lines 321-399). -/

/-- The potential rate used for backfire targeting, ignoring the current
performance multiplier and any shutdown. -/
def potential_rate (name : String) (level : ℕ) : ℚ :=
  BASE_INCOME_PER_SECOND * level * base_gdp_factor name

/-- One iteration of the get_top_earning_shop scan: keep the first shop with
a strictly larger potential rate. -/
def topStep (acc : Option String × ℚ) (ns : String × Shop) : Option String × ℚ :=
  if acc.2 < potential_rate ns.1 ns.2.level
  then (some ns.1, potential_rate ns.1 ns.2.level) else acc

/-- get_top_earning_shop: linear scan keeping the first strict maximum,
starting from max_rate = -1, with the (unreachable) initial-shop fallback. -/
def get_top_earning_shop (shops : List (String × Shop)) : Option String :=
  if shops = [] then none
  else
    let r := shops.foldl topStep (none, -1)
    match r.1 with
    | some n => some n
    | none => if (lookupShop shops INITIAL_SHOP_NAME).isSome then some INITIAL_SHOP_NAME else none

/-- Set the shutdown_until of one shop. -/
def setShopShutdown (shops : List (String × Shop)) (name : String) (t : ℚ) :
    List (String × Shop) :=
  shops.map (fun p => if p.1 = name then (p.1, { p.2 with shutdown_until := some t }) else p)

/-- apply_shop_shutdown on a loaded state; returns the persisted state and
whether the shutdown was applied. -/
def apply_shop_shutdown (now : ℚ) (st : PlayerState) (shop_location : String)
    (duration_seconds : ℚ) : PlayerState × Bool :=
  if (lookupShop st.shops shop_location).isNone then (st, false)
  else ({ st with shops := setShopShutdown st.shops shop_location (now + duration_seconds) }, true)

/-- The attacker side of _process_sabotage: cooldown stamp in every branch,
cost charged only on an affordable failure, backfire shutting the attacker
top shop. The success branch effect on the target record is a separate
player state out of scope of the attacker state returned here. success_roll
models random.random() < SABOTAGE_SUCCESS_CHANCE, backfire_roll the
failure-only random.random() < SABOTAGE_BACKFIRE_CHANCE. -/
def process_sabotage (attempt_time : ℚ) (success_roll backfire_roll : Bool)
    (st : PlayerState) : PlayerState :=
  let attacker_cash := st.cash
  let sabotage_cost := round2 (SABOTAGE_BASE_COST + attacker_cash * SABOTAGE_PCT_COST)
  if success_roll then
    { st with last_sabotage_attempt_time := attempt_time }
  else if attacker_cash < sabotage_cost then
    { st with last_sabotage_attempt_time := attempt_time }
  else
    let st1 := { st with cash := attacker_cash - sabotage_cost }
    let st2 :=
      if backfire_roll then
        match get_top_earning_shop st1.shops with
        | some shop => (apply_shop_shutdown attempt_time st1 shop SABOTAGE_DURATION_SECONDS).1
        | none => st1
      else st1
    { st2 with last_sabotage_attempt_time := attempt_time }

/-! Shakedown resolution (main.py lines 1037-1122, mafia_button_callback). -/

/-- The two shakedown buttons. -/
inductive MafiaChoice
  | pay
  | refuse
deriving DecidableEq

/-- The state update of mafia_button_callback. refuse_win models the
random.random() < 0.5 coin on refusal; collected_amount and mafia_demand are
the values carried over from the interrupted collect_income call. -/
def mafia_resolution (choice : MafiaChoice) (refuse_win : Bool)
    (collected_amount mafia_demand : ℚ) (st : PlayerState) : PlayerState × List String :=
  let cash_to_add : ℚ :=
    match choice with
    | .pay => max 0 (collected_amount - mafia_demand)
    | .refuse => if refuse_win then collected_amount else 0
  let metrics : List String :=
    match choice with
    | .pay => ["session_income", "session_collects"]
    | .refuse => if refuse_win then ["session_income", "session_collects"] else ["session_collects"]
  let st1 :=
    if 0 < cash_to_add then
      { st with
        cash := st.cash + cash_to_add,
        total_income_earned := st.total_income_earned + cash_to_add,
        stats :=
          if "session_income" ∈ metrics then
            { st.stats with session_income := st.stats.session_income + cash_to_add }
          else st.stats }
    else st
  let st2 := { st1 with stats := { st1.stats with session_collects := st1.stats.session_collects + 1 } }
  update_challenge_progress st2 metrics

/-! The engine operations as a single step relation, for the whole-system
balance invariant. Each constructor carries the injected clock, randomness
and request arguments of one exposed operation. -/

/-- One engine operation. -/
inductive Op
  | collect (now : ℚ) (perf : String → ℚ) (demand_percentage : ℚ)
  | upgrade (fail_roll : Bool) (shop_name : String)
  | expand (now : ℚ) (name : String)
  | sabotage (attempt_time : ℚ) (success_roll backfire_roll : Bool)
  | shakedown (choice : MafiaChoice) (refuse_win : Bool) (collected demand : ℚ)
  | generate (now : ℚ) (challenge_type_id : String) (ts : Timescale)
  | checkAch
  | credit (amount : ℤ)

/-- The persisted state after one operation. -/
def step : Op → PlayerState → PlayerState
  | .collect now perf p, st => (collect_income now perf p st).state
  | .upgrade f n, st => (upgrade_shop f st n).2
  | .expand now n, st => (expand_shop now st n).2
  | .sabotage t s b, st => process_sabotage t s b st
  | .shakedown c w ca d, st => (mafia_resolution c w ca d st).1
  | .generate now tid ts, st => generate_new_challenges now tid st ts
  | .checkAch, st => (check_achievements st).1
  | .credit a, st => credit_pizza_coins a st

/-- Run a sequence of operations. -/
def run (ops : List Op) (st : PlayerState) : PlayerState :=
  ops.foldl (fun s o => step o s) st

/-! Supporting lemmas. -/

theorem roundHalfEven_le (x : ℚ) : (roundHalfEven x : ℚ) ≤ x + 1/2 := by
  unfold roundHalfEven
  have h1 : (⌊x⌋ : ℚ) ≤ x := Int.floor_le x
  have h2 : x < ⌊x⌋ + 1 := Int.lt_floor_add_one x
  split_ifs <;> push_cast <;> linarith

theorem le_roundHalfEven (x : ℚ) : x - 1/2 ≤ (roundHalfEven x : ℚ) := by
  unfold roundHalfEven
  have h1 : (⌊x⌋ : ℚ) ≤ x := Int.floor_le x
  have h2 : x < ⌊x⌋ + 1 := Int.lt_floor_add_one x
  split_ifs <;> push_cast <;> linarith

theorem round2_le (x : ℚ) : round2 x ≤ x + 1/200 := by
  have h := roundHalfEven_le (100 * x)
  unfold round2
  linarith

theorem le_round2 (x : ℚ) : x - 1/200 ≤ round2 x := by
  have h := le_roundHalfEven (100 * x)
  unfold round2
  linarith

theorem tupQ_two_pos : ∀ p ∈ EXPANSION_LOCATIONS, 0 < tupQ p.2 2 := by
  intro p hp
  fin_cases hp <;> norm_num [tupQ]

theorem base_gdp_factor_pos (name : String) : 0 < base_gdp_factor name := by
  unfold base_gdp_factor
  split_ifs with h
  · cases hf : lookupLoc name with
    | none => norm_num
    | some l =>
      simp only
      split_ifs with hl
      · unfold lookupLoc at hf
        cases hg : EXPANSION_LOCATIONS.find? (fun p => p.1 == name) with
        | none => rw [hg] at hf; simp at hf
        | some q =>
          rw [hg] at hf
          simp at hf
          have hq := List.mem_of_find?_eq_some hg
          have := tupQ_two_pos q hq
          rwa [hf] at this
      · norm_num
  · norm_num

theorem potential_rate_nonneg (name : String) (level : ℕ) : 0 ≤ potential_rate name level := by
  unfold potential_rate BASE_INCOME_PER_SECOND
  have := base_gdp_factor_pos name
  positivity

theorem grantReward_frame (ch : Challenge) (st : PlayerState) :
    (grantReward ch st).shops = st.shops ∧ (grantReward ch st).stats = st.stats ∧
    (grantReward ch st).daily_challenge = st.daily_challenge ∧
    (grantReward ch st).weekly_challenge = st.weekly_challenge ∧
    (grantReward ch st).daily_progress = st.daily_progress ∧
    (grantReward ch st).weekly_progress = st.weekly_progress ∧
    (grantReward ch st).collection_count = st.collection_count ∧
    (grantReward ch st).total_income_earned = st.total_income_earned ∧
    (grantReward ch st).unlocked_achievements = st.unlocked_achievements ∧
    (grantReward ch st).last_sabotage_attempt_time = st.last_sabotage_attempt_time := by
  unfold grantReward
  split_ifs <;> simp

theorem update_ts_frame (m : List String) (ts : Timescale) (st : PlayerState) (msgs : List String) :
    (update_ts m ts st msgs).1.shops = st.shops ∧
    (update_ts m ts st msgs).1.stats = st.stats ∧
    (update_ts m ts st msgs).1.daily_challenge = st.daily_challenge ∧
    (update_ts m ts st msgs).1.weekly_challenge = st.weekly_challenge ∧
    (update_ts m ts st msgs).1.collection_count = st.collection_count ∧
    (update_ts m ts st msgs).1.total_income_earned = st.total_income_earned ∧
    (update_ts m ts st msgs).1.unlocked_achievements = st.unlocked_achievements ∧
    (update_ts m ts st msgs).1.last_sabotage_attempt_time = st.last_sabotage_attempt_time := by
  unfold update_ts
  cases h : activeChallenge st ts with
  | none => simp
  | some ch =>
    have hg := grantReward_frame ch st
    cases ts <;> simp only [markCompleted] <;> split_ifs <;> simp_all

theorem update_challenge_progress_frame (st : PlayerState) (m : List String) :
    (update_challenge_progress st m).1.shops = st.shops ∧
    (update_challenge_progress st m).1.stats = st.stats ∧
    (update_challenge_progress st m).1.daily_challenge = st.daily_challenge ∧
    (update_challenge_progress st m).1.weekly_challenge = st.weekly_challenge ∧
    (update_challenge_progress st m).1.collection_count = st.collection_count ∧
    (update_challenge_progress st m).1.total_income_earned = st.total_income_earned ∧
    (update_challenge_progress st m).1.unlocked_achievements = st.unlocked_achievements ∧
    (update_challenge_progress st m).1.last_sabotage_attempt_time = st.last_sabotage_attempt_time := by
  unfold update_challenge_progress
  have h1 := update_ts_frame m .daily st []
  have h2 := update_ts_frame m .weekly (update_ts m .daily st []).1 (update_ts m .daily st []).2
  simp only at h1 h2 ⊢
  obtain ⟨a1, a2, a3, a4, a5, a6, a7, a8⟩ := h1
  obtain ⟨b1, b2, b3, b4, b5, b6, b7, b8⟩ := h2
  exact ⟨b1.trans a1, b2.trans a2, b3.trans a3, b4.trans a4, b5.trans a5, b6.trans a6,
    b7.trans a7, b8.trans a8⟩

theorem process_sabotage_stamp (st : PlayerState) (attempt_time : ℚ)
    (success_roll backfire_roll : Bool) :
    (process_sabotage attempt_time success_roll backfire_roll st).last_sabotage_attempt_time
      = attempt_time := by
  simp only [process_sabotage]
  repeat' split
  all_goals rfl

/-- C8: every resolved sabotage attempt stamps the attacker's
last-sabotage-attempt timestamp with the resolution time, in every outcome
branch; under the cooldown guard of sabotage_shop_choice_callback (an
attempt is only processed once the cooldown has elapsed since the previous
stamp) and a monotone clock, the stamp strictly increases. -/
theorem c8_sabotage_cooldown_strictly_increases (st : PlayerState)
    (now attempt_time : ℚ) (success_roll backfire_roll : Bool)
    (hcool : SABOTAGE_COOLDOWN_SECONDS ≤ now - st.last_sabotage_attempt_time)
    (hclock : now ≤ attempt_time) :
    (process_sabotage attempt_time success_roll backfire_roll st).last_sabotage_attempt_time
      = attempt_time ∧
    st.last_sabotage_attempt_time
      < (process_sabotage attempt_time success_roll backfire_roll st).last_sabotage_attempt_time := by
  have hstamp := process_sabotage_stamp st attempt_time success_roll backfire_roll
  refine ⟨hstamp, ?_⟩
  rw [hstamp]
  have : (900 : ℚ) ≤ now - st.last_sabotage_attempt_time := by
    simpa [SABOTAGE_COOLDOWN_SECONDS] using hcool
  linarith

/-- Witness for C8: a freshly created player (stamp 0) attempting at time
900 with a failed, backfiring roll. -/
theorem c8_witness :
    (process_sabotage 900 false true (get_default_player_state 0)).last_sabotage_attempt_time
      = 900 ∧
    (get_default_player_state 0).last_sabotage_attempt_time
      < (process_sabotage 900 false true (get_default_player_state 0)).last_sabotage_attempt_time :=
  c8_sabotage_cooldown_strictly_increases (get_default_player_state 0) 900 900 false true
    (by norm_num [SABOTAGE_COOLDOWN_SECONDS, get_default_player_state]) le_rfl

theorem get_current_performance_multiplier_nonneg (perf : String → ℚ) (name : String)
    (h : ∀ n, 0 ≤ perf n) : 0 ≤ get_current_performance_multiplier perf name := by
  unfold get_current_performance_multiplier
  split_ifs
  · norm_num
  · exact h name

theorem get_shop_income_rate_nonneg (perf : String → ℚ) (name : String) (level : ℕ)
    (h : 0 ≤ get_current_performance_multiplier perf name) :
    0 ≤ get_shop_income_rate perf name level := by
  unfold get_shop_income_rate BASE_INCOME_PER_SECOND
  have hg := base_gdp_factor_pos name
  positivity

theorem incomeStep_mono (now : ℚ) (perf : String → ℚ) (h : ∀ n, 0 ≤ perf n)
    (acc : ℚ) (ns : String × Shop) : acc ≤ incomeStep now perf acc ns := by
  unfold incomeStep
  split_ifs with hd
  · have hr := get_shop_income_rate_nonneg perf ns.1 ns.2.level
      (get_current_performance_multiplier_nonneg perf ns.1 h)
    nlinarith
  · exact le_rfl

theorem foldl_incomeStep_mono (now : ℚ) (perf : String → ℚ) (h : ∀ n, 0 ≤ perf n)
    (shops : List (String × Shop)) :
    ∀ acc : ℚ, acc ≤ shops.foldl (incomeStep now perf) acc := by
  induction shops with
  | nil => intro acc; simp
  | cons a t ih =>
    intro acc
    simp only [List.foldl_cons]
    exact le_trans (incomeStep_mono now perf h acc a) (ih _)

theorem calculate_uncollected_income_nonneg (now : ℚ) (perf : String → ℚ)
    (h : ∀ n, 0 ≤ perf n) (shops : List (String × Shop)) :
    0 ≤ calculate_uncollected_income now perf shops :=
  foldl_incomeStep_mono now perf h shops 0

/-- C9: for the same shop, level, performance multiplier and elapsed window,
an effective shutdown window (one ending after the last collection) yields
strictly less uncollected income than no shutdown, and uncollected income is
never negative. -/
theorem c9_shutdown_strictly_reduces_income (name cn : String) (level : ℕ)
    (perf : String → ℚ) (lc su now : ℚ)
    (hlvl : 1 ≤ level) (hperf : 0 < get_current_performance_multiplier perf name)
    (hlc : 0 ≤ lc) (hel : lc < now) (hsd : lc < su) :
    calculate_uncollected_income now perf
        [(name, { custom_name := cn, level := level, last_collected_time := lc,
                  shutdown_until := some su })]
      < calculate_uncollected_income now perf
        [(name, { custom_name := cn, level := level, last_collected_time := lc,
                  shutdown_until := none })] ∧
    0 ≤ calculate_uncollected_income now perf
        [(name, { custom_name := cn, level := level, last_collected_time := lc,
                  shutdown_until := some su })] ∧
    (∀ shops, (∀ n, 0 ≤ perf n) → 0 ≤ calculate_uncollected_income now perf shops) := by
  have hrate : 0 < get_shop_income_rate perf name level := by
    unfold get_shop_income_rate BASE_INCOME_PER_SECOND
    have hg := base_gdp_factor_pos name
    have hl : (0 : ℚ) < (level : ℚ) := by exact_mod_cast hlvl
    positivity
  have hsu0 : su ≠ 0 := by intro h0; rw [h0] at hsd; linarith
  have hdn : shop_active_duration now
      { custom_name := cn, level := level, last_collected_time := lc,
        shutdown_until := none } = now - lc := by
    unfold shop_active_duration
    simp only
    rw [max_eq_right (by linarith)]
  have hds : shop_active_duration now
      { custom_name := cn, level := level, last_collected_time := lc,
        shutdown_until := some su } = max 0 (now - su) := by
    unfold shop_active_duration
    simp only
    split_ifs with h1 h2
    · exact absurd h2.2 (not_lt.mpr (le_max_right lc su))
    · rw [max_eq_right hsd.le]
    · exact absurd ⟨hsu0, hsd⟩ h1
  have hwithout : calculate_uncollected_income now perf
      [(name, { custom_name := cn, level := level, last_collected_time := lc,
                shutdown_until := none })]
      = get_shop_income_rate perf name level * (now - lc) := by
    unfold calculate_uncollected_income incomeStep
    simp only [List.foldl_cons, List.foldl_nil, hdn]
    rw [if_pos (by linarith)]
    ring
  refine ⟨?_, ?_, fun shops hp => calculate_uncollected_income_nonneg now perf hp shops⟩
  · rw [hwithout]
    unfold calculate_uncollected_income incomeStep
    simp only [List.foldl_cons, List.foldl_nil, hds]
    split_ifs with hpos
    · have h2 : 0 < now - su := by
        by_contra hc
        push_neg at hc
        rw [max_eq_left hc] at hpos
        exact lt_irrefl 0 hpos
      rw [max_eq_right h2.le]
      have h3 : now - su < now - lc := sub_lt_sub_left hsd now
      have h4 := mul_lt_mul_of_pos_left h3 hrate
      linarith
    · have := mul_pos hrate (show (0 : ℚ) < now - lc by linarith)
      linarith
  · unfold calculate_uncollected_income incomeStep
    simp only [List.foldl_cons, List.foldl_nil, hds]
    split_ifs with hpos
    · have := mul_nonneg hrate.le (le_max_left 0 (now - su))
      linarith
    · exact le_rfl

/-- A constant all-ones performance table, for concrete scenarios. -/
def perf1 : String → ℚ := fun _ => 1

/-- Witness for C9: Queens at level 1, window 0 to 100, shutdown until 50. -/
theorem c9_witness :
    calculate_uncollected_income 100 perf1
        [("Queens", { custom_name := "Queens", level := 1, last_collected_time := 0,
                      shutdown_until := some 50 })]
      < calculate_uncollected_income 100 perf1
        [("Queens", { custom_name := "Queens", level := 1, last_collected_time := 0,
                      shutdown_until := none })] ∧
    0 ≤ calculate_uncollected_income 100 perf1
        [("Queens", { custom_name := "Queens", level := 1, last_collected_time := 0,
                      shutdown_until := some 50 })] ∧
    (∀ shops, (∀ n, 0 ≤ perf1 n) → 0 ≤ calculate_uncollected_income 100 perf1 shops) :=
  c9_shutdown_strictly_reduces_income "Queens" "Queens" 1 perf1 0 50 100 le_rfl
    (by norm_num [get_current_performance_multiplier, perf1, INITIAL_SHOP_NAME])
    le_rfl (by norm_num) (by norm_num)

theorem topStep_fold_spec (l : List (String × Shop)) (acc : Option String × ℚ) :
    (l.foldl topStep acc = acc ∨
      ∃ n sh, (n, sh) ∈ l ∧ l.foldl topStep acc = (some n, potential_rate n sh.level)) ∧
    (∀ p ∈ l, potential_rate p.1 p.2.level ≤ (l.foldl topStep acc).2) ∧
    acc.2 ≤ (l.foldl topStep acc).2 := by
  induction l generalizing acc with
  | nil => simp
  | cons a t ih =>
    simp only [List.foldl_cons]
    obtain ⟨ih1, ih2, ih3⟩ := ih (topStep acc a)
    have hstep : topStep acc a = acc ∨
        topStep acc a = (some a.1, potential_rate a.1 a.2.level) := by
      unfold topStep
      split_ifs <;> simp
    have hrate_le : potential_rate a.1 a.2.level ≤ (topStep acc a).2 := by
      unfold topStep
      split_ifs with h
      · simp
      · simpa using not_lt.mp h
    refine ⟨?_, ?_, ?_⟩
    · rcases ih1 with h | ⟨n, sh, hmem, heq⟩
      · rcases hstep with h2 | h2
        · exact Or.inl (h.trans h2)
        · exact Or.inr ⟨a.1, a.2, by simp, h.trans h2⟩
      · exact Or.inr ⟨n, sh, List.mem_cons_of_mem a hmem, heq⟩
    · intro p hp
      rcases List.mem_cons.mp hp with h | h
      · subst h
        exact le_trans hrate_le ih3
      · exact ih2 p h
    · have hacc_le : acc.2 ≤ (topStep acc a).2 := by
        unfold topStep
        split_ifs with h
        · exact le_of_lt (by simpa using h)
        · exact le_rfl
      exact le_trans hacc_le ih3

/-- C10: the backfire target selection returns none exactly on an empty
shop map, and otherwise an owned location of maximal potential rate, the
potential rate being base times level times GDP factor with no performance
or shutdown input. -/
theorem c10_top_earning_shop_spec (shops : List (String × Shop)) :
    (get_top_earning_shop shops = none ↔ shops = []) ∧
    (∀ n, get_top_earning_shop shops = some n →
      ∃ sh, (n, sh) ∈ shops ∧
        ∀ p ∈ shops, potential_rate p.1 p.2.level ≤ potential_rate n sh.level) := by
  by_cases he : shops = []
  · subst he
    simp [get_top_earning_shop]
  · unfold get_top_earning_shop
    rw [if_neg he]
    obtain ⟨h1, h2, h3⟩ := topStep_fold_spec shops (none, -1)
    rcases h1 with hsame | ⟨n, sh, hmem, heq⟩
    · exfalso
      cases shops with
      | nil => exact he rfl
      | cons a t =>
        have ha := h2 a (by simp)
        rw [hsame] at ha
        have h0 := potential_rate_nonneg a.1 a.2.level
        simp only at ha
        linarith
    · simp only [heq]
      refine ⟨iff_of_false (by simp) he, ?_⟩
      intro m hm
      have hnm : n = m := by simpa using hm
      subst hnm
      refine ⟨sh, hmem, ?_⟩
      intro p hp
      have hr := h2 p hp
      rw [heq] at hr
      simpa using hr

/-- The two-shop map of the C10 witness scenario. -/
def c10_shops : List (String × Shop) :=
  [("Brooklyn", { custom_name := "Brooklyn", level := 3, last_collected_time := 0,
                  shutdown_until := none }),
   ("Manhattan", { custom_name := "Manhattan", level := 3, last_collected_time := 0,
                   shutdown_until := none })]

/-- Witness for C10: of a level 3 Brooklyn and a level 3 Manhattan, the
Manhattan shop has the larger potential rate and is selected. -/
theorem c10_witness :
    ∃ sh, ("Manhattan", sh) ∈ c10_shops ∧
      ∀ p ∈ c10_shops, potential_rate p.1 p.2.level ≤ potential_rate "Manhattan" sh.level :=
  (c10_top_earning_shop_spec c10_shops).2 "Manhattan"
    (by
      simp [get_top_earning_shop, topStep, List.foldl, potential_rate, base_gdp_factor,
        INITIAL_SHOP_NAME, lookupLoc, EXPANSION_LOCATIONS, List.find?, tupQ,
        BASE_INCOME_PER_SECOND, lookupShop, c10_shops]
      norm_num)

theorem shop_active_duration_reset (now : ℚ) (sh : Shop) :
    shop_active_duration now { sh with last_collected_time := now } = 0 := by
  unfold shop_active_duration
  simp only
  cases h : sh.shutdown_until with
  | none => simp
  | some s =>
    simp only
    split_ifs with h1 h2
    · exact absurd h2.2 (not_lt.mpr (le_max_right now s))
    · rw [max_eq_left (by simp [sub_nonpos, le_max_left])]
    · simp

theorem uncollected_after_reset (now : ℚ) (perf : String → ℚ)
    (shops : List (String × Shop)) :
    calculate_uncollected_income now perf
      (shops.map (fun ns => (ns.1, { ns.2 with last_collected_time := now }))) = 0 := by
  unfold calculate_uncollected_income
  induction shops with
  | nil => simp
  | cons a t ih =>
    simp only [List.map_cons, List.foldl_cons]
    have hz : incomeStep now perf 0 (a.1, { a.2 with last_collected_time := now }) = 0 := by
      unfold incomeStep
      rw [shop_active_duration_reset]
      simp
    rw [hz]
    exact ih

theorem collect_amount_zero_of_zero_uncollected (now : ℚ) (perf : String → ℚ) (q : ℚ)
    (st : PlayerState) (h : calculate_uncollected_income now perf st.shops = 0) :
    (collect_income now perf q st).amount = 0 := by
  simp only [collect_income, h]
  norm_num

/-- C3 (amended): on a collection pushing the counter to a multiple of 5
with uncollected amount above the 0.01 no-op epsilon, a shakedown event is
returned whose demand is the uniform 10 to 75 percent fraction of the
collected amount rounded to cents; when the collected amount moreover
exceeds 0.05, the demand is strictly between 0 and the collected amount
(for smaller amounts the rounded demand can degenerate to 0). -/
theorem c3_shakedown_demand_bounds (st : PlayerState) (now : ℚ) (perf : String → ℚ)
    (p : ℚ) (hp1 : 1/10 ≤ p) (hp2 : p ≤ 3/4)
    (hu : 1/100 < calculate_uncollected_income now perf st.shops)
    (hc : (st.collection_count + 1) % 5 = 0) :
    (collect_income now perf p st).is_mafia_event = true ∧
    (collect_income now perf p st).amount = calculate_uncollected_income now perf st.shops ∧
    (collect_income now perf p st).mafia_demand
      = some (round2 (calculate_uncollected_income now perf st.shops * p)) ∧
    (1/20 < calculate_uncollected_income now perf st.shops →
      ∀ d, (collect_income now perf p st).mafia_demand = some d →
        0 < d ∧ d < (collect_income now perf p st).amount) := by
  have upos : (0 : ℚ) < calculate_uncollected_income now perf st.shops := by linarith
  simp only [collect_income]
  rw [if_pos hu, if_pos ⟨by omega, hc⟩]
  refine ⟨rfl, rfl, rfl, ?_⟩
  intro hu20 d hd
  have hd' : round2 (calculate_uncollected_income now perf st.shops * p) = d := by
    simpa using hd
  subst hd'
  have hlo := le_round2 (calculate_uncollected_income now perf st.shops * p)
  have hhi := round2_le (calculate_uncollected_income now perf st.shops * p)
  have hp_lo := mul_le_mul_of_nonneg_left hp1 upos.le
  have hp_hi := mul_le_mul_of_nonneg_left hp2 upos.le
  constructor
  · linarith
  · simp only
    linarith

/-- The C3 scenario state: a fresh starter record that has already made
four collections. -/
def c3_state : PlayerState := { get_default_player_state 0 with collection_count := 4 }

/-- Counterexample for C3: on the fifth collection of a 0.02 haul with the
uniform draw at its 0.10 lower end, the shakedown triggers with demand
round(0.002, 2) = 0, not strictly positive as claimed. -/
theorem c3_counterexample :
    (collect_income (1/5) perf1 (1/10) c3_state).is_mafia_event = true ∧
    0 < (collect_income (1/5) perf1 (1/10) c3_state).amount ∧
    (collect_income (1/5) perf1 (1/10) c3_state).mafia_demand = some 0 := by
  have hu : calculate_uncollected_income (1/5) perf1 c3_state.shops = 1/50 := by
    norm_num [calculate_uncollected_income, incomeStep, c3_state, get_default_player_state,
      List.foldl, shop_active_duration, get_shop_income_rate, base_gdp_factor, lookupLoc,
      get_current_performance_multiplier, perf1, INITIAL_SHOP_NAME, BASE_INCOME_PER_SECOND,
      EXPANSION_LOCATIONS, List.find?]
  simp only [collect_income, hu]
  rw [if_pos (by norm_num), if_pos (by norm_num [c3_state, get_default_player_state])]
  refine ⟨rfl, by norm_num, ?_⟩
  norm_num [round2, roundHalfEven]

/-- Witness for C3 amended theorem: fifth collection of a 10.00 haul with
the uniform draw at 0.5; the demand 5.00 is strictly between 0 and 10. -/
theorem c3_witness :
    (collect_income 100 perf1 (1/2) c3_state).is_mafia_event = true ∧
    (collect_income 100 perf1 (1/2) c3_state).amount
      = calculate_uncollected_income 100 perf1 c3_state.shops ∧
    (collect_income 100 perf1 (1/2) c3_state).mafia_demand
      = some (round2 (calculate_uncollected_income 100 perf1 c3_state.shops * (1/2))) ∧
    (1/20 < calculate_uncollected_income 100 perf1 c3_state.shops →
      ∀ d, (collect_income 100 perf1 (1/2) c3_state).mafia_demand = some d →
        0 < d ∧ d < (collect_income 100 perf1 (1/2) c3_state).amount) :=
  c3_shakedown_demand_bounds c3_state 100 perf1 (1/2) (by norm_num) (by norm_num)
    (by norm_num [calculate_uncollected_income, incomeStep, c3_state, get_default_player_state,
      List.foldl, shop_active_duration, get_shop_income_rate, base_gdp_factor, lookupLoc,
      get_current_performance_multiplier, perf1, INITIAL_SHOP_NAME, BASE_INCOME_PER_SECOND,
      EXPANSION_LOCATIONS, List.find?])
    (by norm_num [c3_state, get_default_player_state])

/-- C5 (amended): a collect whose uncollected amount exceeds the 0.01
no-op epsilon advances every owned shop's last_collected_time to now and
increments the collection counter in the persisted state; an immediately
repeated collect returns zero; and when the shakedown triggers, the
persisted state is exactly that timestamp-and-counter update, leaving cash,
lifetime income and the session income and collects counters unchanged. -/
theorem c5_collect_persistence (st : PlayerState) (now : ℚ) (perf : String → ℚ) (p q : ℚ)
    (hu : 1/100 < calculate_uncollected_income now perf st.shops) :
    (collect_income now perf p st).state.shops
      = st.shops.map (fun ns => (ns.1, { ns.2 with last_collected_time := now })) ∧
    (collect_income now perf p st).state.collection_count = st.collection_count + 1 ∧
    (collect_income now perf q ((collect_income now perf p st).state)).amount = 0 ∧
    ((collect_income now perf p st).is_mafia_event = true →
      (collect_income now perf p st).state
        = { st with
            shops := st.shops.map (fun ns => (ns.1, { ns.2 with last_collected_time := now })),
            collection_count := st.collection_count + 1 }) := by
  have hkey : (collect_income now perf p st).state.shops
        = st.shops.map (fun ns => (ns.1, { ns.2 with last_collected_time := now })) ∧
      (collect_income now perf p st).state.collection_count = st.collection_count + 1 ∧
      ((collect_income now perf p st).is_mafia_event = true →
        (collect_income now perf p st).state
          = { st with
              shops := st.shops.map (fun ns => (ns.1, { ns.2 with last_collected_time := now })),
              collection_count := st.collection_count + 1 }) := by
    simp only [collect_income]
    rw [if_pos hu]
    split_ifs with hm
    · exact ⟨rfl, rfl, fun _ => rfl⟩
    · refine ⟨?_, ?_, fun h => absurd h (by simp)⟩
      · exact (update_challenge_progress_frame _ _).1.trans rfl
      · exact (update_challenge_progress_frame _ _).2.2.2.2.1.trans rfl
  refine ⟨hkey.1, hkey.2.1, ?_, hkey.2.2⟩
  apply collect_amount_zero_of_zero_uncollected
  rw [hkey.1]
  exact uncollected_after_reset now perf st.shops

/-- Counterexample for C5: with 0.05 seconds elapsed the uncollected amount
0.005 is positive, yet collect is a no-op (below the 0.01 epsilon): the
persisted state is unchanged, so the collection counter is not incremented
and the timestamps are not advanced as the claim requires. -/
theorem c5_counterexample :
    0 < calculate_uncollected_income (1/20) perf1 (get_default_player_state 0).shops ∧
    (collect_income (1/20) perf1 (1/2) (get_default_player_state 0)).state
      = get_default_player_state 0 := by
  have hu : calculate_uncollected_income (1/20) perf1 (get_default_player_state 0).shops
      = 1/200 := by
    norm_num [calculate_uncollected_income, incomeStep, get_default_player_state,
      List.foldl, shop_active_duration, get_shop_income_rate, base_gdp_factor, lookupLoc,
      get_current_performance_multiplier, perf1, INITIAL_SHOP_NAME, BASE_INCOME_PER_SECOND,
      EXPANSION_LOCATIONS, List.find?]
  refine ⟨by rw [hu]; norm_num, ?_⟩
  simp only [collect_income, hu]
  rw [if_neg (by norm_num)]

/-- Witness for C5: a 10.00 collect at time 100 on a fresh record. -/
theorem c5_witness :
    (collect_income 100 perf1 (1/2) (get_default_player_state 0)).state.shops
      = (get_default_player_state 0).shops.map
          (fun ns => (ns.1, { ns.2 with last_collected_time := 100 })) ∧
    (collect_income 100 perf1 (1/2) (get_default_player_state 0)).state.collection_count
      = (get_default_player_state 0).collection_count + 1 ∧
    (collect_income 100 perf1 (1/3)
        ((collect_income 100 perf1 (1/2) (get_default_player_state 0)).state)).amount = 0 ∧
    ((collect_income 100 perf1 (1/2) (get_default_player_state 0)).is_mafia_event = true →
      (collect_income 100 perf1 (1/2) (get_default_player_state 0)).state
        = { get_default_player_state 0 with
            shops := (get_default_player_state 0).shops.map
              (fun ns => (ns.1, { ns.2 with last_collected_time := 100 })),
            collection_count := (get_default_player_state 0).collection_count + 1 }) :=
  c5_collect_persistence (get_default_player_state 0) 100 perf1 (1/2) (1/3)
    (by norm_num [calculate_uncollected_income, incomeStep, get_default_player_state,
      List.foldl, shop_active_duration, get_shop_income_rate, base_gdp_factor, lookupLoc,
      get_current_performance_multiplier, perf1, INITIAL_SHOP_NAME, BASE_INCOME_PER_SECOND,
      EXPANSION_LOCATIONS, List.find?])

theorem lookupShop_setShopLevel (shops : List (String × Shop)) (name : String) (lvl : ℕ)
    (sh : Shop) (h : lookupShop shops name = some sh) :
    lookupShop (setShopLevel shops name lvl) name = some { sh with level := lvl } := by
  induction shops with
  | nil => simp [lookupShop] at h
  | cons a t ih =>
    by_cases ha : a.1 = name
    · have hbeq : (a.1 == name) = true := beq_iff_eq.mpr ha
      have hsh : a.2 = sh := by
        unfold lookupShop at h
        simp only [List.find?, hbeq] at h
        simpa using h
      subst hsh
      simp only [lookupShop, setShopLevel, List.map_cons, if_pos ha, List.find?, hbeq]
      rfl
    · have hbeq : (a.1 == name) = false := by simpa using ha
      have h' : lookupShop t name = some sh := by
        unfold lookupShop at h ⊢
        simp only [List.find?, hbeq] at h
        exact h
      have hrec := ih h'
      unfold lookupShop setShopLevel at hrec ⊢
      simp only [List.map_cons, if_neg ha, List.find?, hbeq]
      exact hrec

/-- C4: upgrade fails with no state change when the shop is not owned or
cash is below the upgrade cost; otherwise the cost is deducted first, and
the roll either forfeits it with no level change (persisted as-is) or
increments the level by one and the session upgrades counter. -/
theorem c4_upgrade_shop_spec (fail_roll : Bool) (st : PlayerState) (shop_name : String) :
    (lookupShop st.shops shop_name = none →
      upgrade_shop fail_roll st shop_name = (.notOwned, st)) ∧
    (∀ sh, lookupShop st.shops shop_name = some sh →
      (st.cash < get_upgrade_cost sh.level shop_name →
        upgrade_shop fail_roll st shop_name
          = (.insufficientFunds (get_upgrade_cost sh.level shop_name), st)) ∧
      (get_upgrade_cost sh.level shop_name ≤ st.cash → fail_roll = true →
        upgrade_shop fail_roll st shop_name
          = (.failed (get_upgrade_cost sh.level shop_name),
             { st with cash := st.cash - get_upgrade_cost sh.level shop_name })) ∧
      (get_upgrade_cost sh.level shop_name ≤ st.cash → fail_roll = false →
        (upgrade_shop fail_roll st shop_name).1 = .success (sh.level + 1) ∧
        lookupShop (upgrade_shop fail_roll st shop_name).2.shops shop_name
          = some { sh with level := sh.level + 1 } ∧
        (upgrade_shop fail_roll st shop_name).2.stats.session_upgrades
          = st.stats.session_upgrades + 1)) := by
  constructor
  · intro h
    simp only [upgrade_shop, h]
  · intro sh h
    simp only [upgrade_shop, h]
    refine ⟨fun hlt => by rw [if_pos hlt], fun hge hf => ?_, fun hge hf => ?_⟩
    · rw [if_neg (not_lt.mpr hge)]
      subst hf
      rfl
    · rw [if_neg (not_lt.mpr hge)]
      subst hf
      simp only [Bool.false_eq_true, if_false]
      refine ⟨by trivial, ?_, ?_⟩
      · rw [(update_challenge_progress_frame _ _).1]
        exact lookupShop_setShopLevel st.shops shop_name (sh.level + 1) sh h
      · rw [(update_challenge_progress_frame _ _).2.1]

/-- Witness for C4: a fresh player (cash 10) cannot afford the 75.00
Brooklyn upgrade; the call fails with no state change. -/
theorem c4_witness :
    upgrade_shop true (get_default_player_state 0) "Brooklyn"
      = (.insufficientFunds (get_upgrade_cost 1 "Brooklyn"), get_default_player_state 0) :=
  (((c4_upgrade_shop_spec true (get_default_player_state 0) "Brooklyn").2
    { custom_name := "Brooklyn", level := 1, last_collected_time := 0, shutdown_until := none }
    (by norm_num [lookupShop, get_default_player_state, List.find?, INITIAL_SHOP_NAME])).1
    (by norm_num [get_default_player_state, INITIAL_CASH, get_upgrade_cost,
      location_cost_scale, INITIAL_SHOP_NAME, BASE_UPGRADE_COST, UPGRADE_COST_MULTIPLIER,
      round2, roundHalfEven]))

theorem apply_goal_floor_income (g : ℤ) : apply_goal_floor "session_income" g = g := by
  have h1 : strContains "cash" "session_income" = false := by decide
  have h2 : strContains "upgrade" "session_income" = false := by decide
  have h3 : strContains "collect" "session_income" = false := by decide
  simp [apply_goal_floor, h1, h2, h3]

theorem apply_goal_floor_upgrades (g : ℤ) :
    apply_goal_floor "session_upgrades" g = max 1 g := by
  have h1 : strContains "cash" "session_upgrades" = false := by decide
  have h2 : strContains "upgrade" "session_upgrades" = true := by decide
  have h3 : strContains "collect" "session_upgrades" = false := by decide
  simp only [apply_goal_floor, h1, h2, h3, Bool.false_eq_true, false_and, if_false, true_and]
  split_ifs <;> omega

theorem apply_goal_floor_collects (g : ℤ) :
    apply_goal_floor "session_collects" g = max 2 g := by
  have h1 : strContains "cash" "session_collects" = false := by decide
  have h2 : strContains "upgrade" "session_collects" = false := by decide
  have h3 : strContains "collect" "session_collects" = true := by decide
  simp only [apply_goal_floor, h1, h2, h3, Bool.false_eq_true, false_and, if_false, true_and]
  split_ifs <;> omega

theorem apply_goal_floor_expansions (g : ℤ) :
    apply_goal_floor "session_expansions" g = g := by
  have h1 : strContains "cash" "session_expansions" = false := by decide
  have h2 : strContains "upgrade" "session_expansions" = false := by decide
  have h3 : strContains "collect" "session_expansions" = false := by decide
  simp [apply_goal_floor, h1, h2, h3]

theorem le_apply_goal_floor (m : String) (g : ℤ) : g ≤ apply_goal_floor m g := by
  simp only [apply_goal_floor]
  split_ifs <;> omega

theorem challenge_types_facts :
    ∀ t ∈ CHALLENGE_TYPES, 1 ≤ t.base_goal ∧ 1 ≤ t.goal_mult ∧
      0 < t.base_reward ∧ 0 < t.reward_mult := by
  intro t ht
  fin_cases ht <;> norm_num

theorem one_le_pyInt (x : ℚ) (h : 1 ≤ x) : 1 ≤ pyInt x := by
  unfold pyInt
  rw [if_pos (by linarith)]
  exact Int.le_floor.mpr (by exact_mod_cast h)

theorem pyInt_nonneg (x : ℚ) (h : 0 ≤ x) : 0 ≤ pyInt x := by
  unfold pyInt
  rw [if_pos h]
  exact Int.le_floor.mpr (by exact_mod_cast h)

theorem one_le_pow_of_one_le (a : ℚ) (h : 1 ≤ a) (n : ℕ) : 1 ≤ a ^ n := by
  induction n with
  | zero => simp
  | succ k ih =>
    rw [pow_succ]
    nlinarith

/-- C7 (amended): for every generated challenge, with level the count of
unlocked achievements, the goal is the TRUNCATION (Python int) of
base_goal times goal_growth to the level, and the reward the truncation of
base_reward times reward_growth to the level; explicit minimum floors exist
only for the upgrade goal (at least 1) and the collect goal (at least 2);
the income floor's test looks for the substring cash in the metric name and
never fires, and rewards have no floor; goals are nevertheless always at
least 1 because every base goal and growth factor is at least 1. -/
theorem c7_challenge_scaling (st : PlayerState) (now : ℚ) (tid : String) (ts : Timescale)
    (t : ChallengeTemplate) (h : CHALLENGE_TYPES.find? (fun x => x.id == tid) = some t) :
    (∃ ch, activeChallenge (generate_new_challenges now tid st ts) ts = some ch ∧
      ch.goal = apply_goal_floor t.metric
        (pyInt (t.base_goal * t.goal_mult ^ st.unlocked_achievements.length)) ∧
      ch.reward_value = pyInt (t.base_reward * t.reward_mult ^ st.unlocked_achievements.length) ∧
      1 ≤ ch.goal) ∧
    (∀ g : ℤ, apply_goal_floor "session_income" g = g) ∧
    (∀ g : ℤ, apply_goal_floor "session_upgrades" g = max 1 g) ∧
    (∀ g : ℤ, apply_goal_floor "session_collects" g = max 2 g) ∧
    (∀ g : ℤ, apply_goal_floor "session_expansions" g = g) := by
  have hmem := List.mem_of_find?_eq_some h
  obtain ⟨hbg, hgm, hbr, hrm⟩ := challenge_types_facts t hmem
  have hone : 1 ≤ t.base_goal * t.goal_mult ^ st.unlocked_achievements.length := by
    have hp := one_le_pow_of_one_le t.goal_mult hgm st.unlocked_achievements.length
    nlinarith
  have hgoal : 1 ≤ apply_goal_floor t.metric
      (pyInt (t.base_goal * t.goal_mult ^ st.unlocked_achievements.length)) :=
    le_trans (one_le_pyInt _ hone) (le_apply_goal_floor _ _)
  refine ⟨?_, apply_goal_floor_income, apply_goal_floor_upgrades,
    apply_goal_floor_collects, apply_goal_floor_expansions⟩
  simp only [generate_new_challenges, h]
  cases ts <;> exact ⟨_, rfl, rfl, rfl, hgoal⟩

/-- The C7 scenario state: three unlocked achievements, so progression
level 3. -/
def c7_state : PlayerState :=
  { get_default_player_state 0 with
    unlocked_achievements := ["income_1k", "shops_3", "first_expansion"] }

/-- Counterexample for C7: the upgrade challenge at level 3 gets code goal
int(1.2 cubed) = int(1.728) = 1, while the claimed round(1.728) = 2. -/
theorem c7_counterexample :
    (∃ ch, (generate_new_challenges 0 "upgrade_shops" c7_state Timescale.daily).daily_challenge
        = some ch ∧ ch.goal = 1) ∧
    roundHalfEven ((1 : ℚ) * ((6 : ℚ)/5) ^ (3 : ℕ)) = 2 := by
  constructor
  · have hfind : CHALLENGE_TYPES.find? (fun x => x.id == "upgrade_shops")
        = some ⟨"upgrade_shops", "session_upgrades", 1, 6/5, "pizza_coins", 10, 13/10⟩ := by
      have e1 : ("earn_cash" == "upgrade_shops") = false := by decide
      have e2 : ("upgrade_shops" == "upgrade_shops") = true := by decide
      simp [CHALLENGE_TYPES, List.find?, e1, e2]
    have hlen : c7_state.unlocked_achievements.length = 3 := by
      norm_num [c7_state, get_default_player_state]
    simp only [generate_new_challenges, hfind, hlen]
    refine ⟨_, rfl, ?_⟩
    rw [apply_goal_floor_upgrades]
    norm_num [pyInt]
  · norm_num [roundHalfEven]

/-- Witness for C7: the income challenge on a fresh record (level 0):
goal floor behavior and truncation at the earn_cash template. -/
theorem c7_witness :
    (∃ ch, activeChallenge
        (generate_new_challenges 0 "earn_cash" (get_default_player_state 0) Timescale.weekly)
        Timescale.weekly = some ch ∧
      ch.goal = apply_goal_floor "session_income"
        (pyInt ((100 : ℚ) * ((3 : ℚ)/2) ^ (get_default_player_state 0).unlocked_achievements.length)) ∧
      ch.reward_value
        = pyInt ((50 : ℚ) * ((3 : ℚ)/2) ^ (get_default_player_state 0).unlocked_achievements.length) ∧
      1 ≤ ch.goal) ∧
    (∀ g : ℤ, apply_goal_floor "session_income" g = g) ∧
    (∀ g : ℤ, apply_goal_floor "session_upgrades" g = max 1 g) ∧
    (∀ g : ℤ, apply_goal_floor "session_collects" g = max 2 g) ∧
    (∀ g : ℤ, apply_goal_floor "session_expansions" g = g) :=
  c7_challenge_scaling (get_default_player_state 0) 0 "earn_cash" Timescale.weekly
    ⟨"earn_cash", "session_income", 100, 3/2, "cash", 50, 3/2⟩
    (by norm_num [CHALLENGE_TYPES, List.find?])

theorem update_ts_eq (m : List String) (ts : Timescale) (st : PlayerState) (msgs : List String) :
    update_ts m ts st msgs =
      match activeChallenge st ts with
      | none => (st, msgs)
      | some ch =>
        if ch.metric ∈ m ∧ ch.id ∉ progressOf st ts ∧ (ch.goal : ℚ) ≤ statGet st.stats ch.metric
        then (markCompleted ts ch.id (grantReward ch st), msgs ++ [ch.id])
        else (st, msgs) := by
  unfold update_ts
  cases activeChallenge st ts with
  | none => rfl
  | some ch =>
    simp only
    split_ifs <;> first | rfl | tauto

theorem progressOf_update_ts_superset (m : List String) (ts ts' : Timescale)
    (st : PlayerState) (msgs : List String) (x : String) (hx : x ∈ progressOf st ts') :
    x ∈ progressOf (update_ts m ts st msgs).1 ts' := by
  rw [update_ts_eq]
  cases h : activeChallenge st ts with
  | none => exact hx
  | some ch =>
    simp only
    split_ifs with hcond
    · have hg := grantReward_frame ch st
      cases ts <;> cases ts' <;>
        simp_all [markCompleted, progressOf]
    · exact hx

theorem update_ts_skip (m : List String) (ts : Timescale) (st : PlayerState)
    (msgs : List String)
    (h : ∀ ch, activeChallenge st ts = some ch → ch.metric ∈ m →
      ch.id ∈ progressOf st ts ∨ statGet st.stats ch.metric < ch.goal) :
    update_ts m ts st msgs = (st, msgs) := by
  rw [update_ts_eq]
  cases hc : activeChallenge st ts with
  | none => rfl
  | some ch =>
    simp only
    rw [if_neg]
    rintro ⟨h1, h2, h3⟩
    rcases h ch hc h1 with h4 | h4
    · exact h2 h4
    · exact absurd h3 (not_le.mpr h4)

theorem update_ts_post (m : List String) (ts : Timescale) (st : PlayerState)
    (msgs : List String) (ch : Challenge) (hc : activeChallenge st ts = some ch)
    (hm : ch.metric ∈ m) :
    ch.id ∈ progressOf (update_ts m ts st msgs).1 ts ∨
      statGet (update_ts m ts st msgs).1.stats ch.metric < ch.goal := by
  rw [update_ts_eq]
  rw [hc]
  simp only
  split_ifs with hcond
  · left
    have hg := grantReward_frame ch st
    cases ts <;> simp_all [markCompleted, progressOf]
  · simp only [not_and_or, not_not] at hcond
    rcases hcond with h1 | h2 | h3
    · exact absurd hm h1
    · exact Or.inl h2
    · exact Or.inr (by simpa using not_le.mp h3)

theorem activeChallenge_update_ts (m : List String) (ts ts' : Timescale)
    (st : PlayerState) (msgs : List String) :
    activeChallenge (update_ts m ts st msgs).1 ts' = activeChallenge st ts' := by
  have hf := update_ts_frame m ts st msgs
  cases ts' <;> simp [activeChallenge, hf.2.2.1, hf.2.2.2.1]

theorem update_challenge_progress_skip (st : PlayerState) (m : List String) (ts : Timescale) :
    ∀ ch, activeChallenge (update_challenge_progress st m).1 ts = some ch → ch.metric ∈ m →
      ch.id ∈ progressOf (update_challenge_progress st m).1 ts ∨
        statGet (update_challenge_progress st m).1.stats ch.metric < ch.goal := by
  intro ch hc hm
  simp only [update_challenge_progress] at hc ⊢
  rw [activeChallenge_update_ts, activeChallenge_update_ts] at hc
  cases ts with
  | daily =>
    have hpost := update_ts_post m .daily st [] ch hc hm
    rcases hpost with h | h
    · exact Or.inl (progressOf_update_ts_superset m .weekly .daily _ _ ch.id h)
    · right
      rw [(update_ts_frame m .weekly _ _).2.1]
      exact h
  | weekly =>
    have hc2 : activeChallenge (update_ts m .daily st []).1 .weekly = some ch := by
      rw [activeChallenge_update_ts]
      exact hc
    exact update_ts_post m .weekly _ _ ch hc2 hm

/-- C6: a challenge instance completes and is rewarded at most once: after
one evaluation pass, a second pass is the identity and emits no messages
(the completed id is skipped and the stats are unchanged until generation);
a single-slot completion grants the reward and marks the id exactly once;
and generating a timescale's challenge clears that timescale's completed-id
map and zeroes all session counters (shared by both timescales). -/
theorem c6_challenge_once (st : PlayerState) (m : List String) :
    (update_challenge_progress (update_challenge_progress st m).1 m
      = ((update_challenge_progress st m).1, [])) ∧
    (∀ ch, st.daily_challenge = some ch → st.weekly_challenge = none →
      ch.metric ∈ m → ch.id ∉ st.daily_progress →
      (ch.goal : ℚ) ≤ statGet st.stats ch.metric →
      update_challenge_progress st m
        = (markCompleted .daily ch.id (grantReward ch st), [ch.id])) ∧
    (∀ now tid ts t, CHALLENGE_TYPES.find? (fun x => x.id == tid) = some t →
      progressOf (generate_new_challenges now tid st ts) ts = [] ∧
      (generate_new_challenges now tid st ts).stats = ⟨0, 0, 0, 0⟩) := by
  refine ⟨?_, ?_, ?_⟩
  · have hd := update_challenge_progress_skip st m .daily
    have hw := update_challenge_progress_skip st m .weekly
    conv_lhs => rw [update_challenge_progress]
    rw [update_ts_skip m .daily _ _ hd]
    rw [update_ts_skip m .weekly _ _ hw]
  · intro ch hch hwk hm hnp hgoal
    unfold update_challenge_progress
    have h1 : update_ts m .daily st []
        = (markCompleted .daily ch.id (grantReward ch st), [ch.id]) := by
      rw [update_ts_eq]
      have hac : activeChallenge st .daily = some ch := hch
      rw [hac]
      simp only
      rw [if_pos ⟨hm, hnp, hgoal⟩]
      simp
    rw [h1]
    apply update_ts_skip
    intro ch' hch' hm'
    have hwk' : activeChallenge (markCompleted .daily ch.id (grantReward ch st)) .weekly
        = none := by
      simp [activeChallenge, markCompleted, (grantReward_frame ch st).2.2.2.1, hwk]
    rw [hwk'] at hch'
    exact absurd hch' (by simp)
  · intro now tid ts t h
    simp only [generate_new_challenges, h]
    cases ts <;> exact ⟨by trivial, by trivial⟩

/-- An active challenge instance for the C6 witness scenario. -/
def c6_challenge : Challenge :=
  { id := "daily_collect_times_0", ctype := "collect_times", metric := "session_collects",
    goal := 2, reward_type := "cash", reward_value := 20 }

/-- The C6 witness state: a fresh record with that daily challenge active,
no weekly challenge, and two session collects already counted. -/
def c6_state : PlayerState :=
  { get_default_player_state 0 with
    daily_challenge := some c6_challenge,
    stats := ⟨0, 0, 2, 0⟩ }

/-- Witness for C6: completing the daily collect challenge grants its
reward and marks it once; a second evaluation pass is the identity. -/
theorem c6_witness :
    update_challenge_progress c6_state ["session_collects"]
      = (markCompleted .daily c6_challenge.id (grantReward c6_challenge c6_state),
         [c6_challenge.id]) ∧
    update_challenge_progress
        (update_challenge_progress c6_state ["session_collects"]).1 ["session_collects"]
      = ((update_challenge_progress c6_state ["session_collects"]).1, []) := by
  have h := c6_challenge_once c6_state ["session_collects"]
  refine ⟨h.2.1 c6_challenge rfl rfl (by simp [c6_challenge]) ?_ ?_, h.1⟩
  · simp [c6_state, get_default_player_state]
  · simp [statGet, c6_state, c6_challenge]

/-- The C2 failing input: a fresh record whose lifetime income has just
reached 1000, entitling it to the income_1k achievement. -/
def c2_state : PlayerState := { get_default_player_state 0 with total_income_earned := 1000 }

/-- C2: check_achievements never credits the reward columns of
ACHIEVEMENTS (they are destructured into throwaway variables): cash and
premium balances are unchanged for every state; at the failing input the
income_1k achievement is newly unlocked, its table row promises a 100 cash
reward, and yet both balances stay put. -/
theorem c2_achievement_rewards_never_granted :
    (∀ st : PlayerState, (check_achievements st).1.cash = st.cash ∧
      (check_achievements st).1.pizza_coins = st.pizza_coins) ∧
    ("income_1k" ∈ (check_achievements c2_state).1.unlocked_achievements ∧
      (check_achievements c2_state).1.cash = c2_state.cash ∧
      (check_achievements c2_state).1.pizza_coins = c2_state.pizza_coins ∧
      (ACHIEVEMENTS.find? (fun a => a.id == "income_1k")).map
          (fun a => (a.reward_type, a.reward_value)) = some ("cash", 100)) := by
  have hframe : ∀ st : PlayerState, (check_achievements st).1.cash = st.cash ∧
      (check_achievements st).1.pizza_coins = st.pizza_coins := by
    intro st
    simp only [check_achievements]
    split_ifs <;> exact ⟨rfl, rfl⟩
  refine ⟨hframe, ?_, (hframe c2_state).1, (hframe c2_state).2, ?_⟩
  · have hun : (check_achievements c2_state).1.unlocked_achievements = ["income_1k"] := by
      simp [check_achievements, ACHIEVEMENTS, List.foldl, get_achievement_value, c2_state,
        get_default_player_state, lookupShop, owns, List.find?, INITIAL_SHOP_NAME]
      norm_num
    rw [hun]
    simp
  · simp [ACHIEVEMENTS, List.find?]

/-! The C1 balance invariant: nonnegative cash and premium balance, plus
the auxiliary fact (needed inductively) that any active challenge carries a
nonnegative reward. -/

/-- The active challenge slot, when filled, has a nonnegative reward. -/
def rewardOk : Option Challenge → Prop
  | none => True
  | some ch => 0 ≤ ch.reward_value

/-- The inductive balance invariant of a player record. -/
def BalancesOk (st : PlayerState) : Prop :=
  0 ≤ st.cash ∧ 0 ≤ st.pizza_coins ∧ rewardOk st.daily_challenge ∧ rewardOk st.weekly_challenge

theorem rewardOk_some (oc : Option Challenge) (ch : Challenge) (h : rewardOk oc)
    (he : oc = some ch) : 0 ≤ ch.reward_value := by
  subst he
  exact h

theorem grantReward_BalancesOk (ch : Challenge) (st : PlayerState)
    (h : BalancesOk st) (hr : 0 ≤ ch.reward_value) : BalancesOk (grantReward ch st) := by
  obtain ⟨h1, h2, h3, h4⟩ := h
  unfold BalancesOk grantReward
  split_ifs
  · exact ⟨add_nonneg h1 (by exact_mod_cast hr), h2, h3, h4⟩
  · exact ⟨h1, add_nonneg h2 hr, h3, h4⟩
  · exact ⟨h1, h2, h3, h4⟩

theorem markCompleted_BalancesOk (ts : Timescale) (cid : String) (st : PlayerState)
    (h : BalancesOk st) : BalancesOk (markCompleted ts cid st) := by
  cases ts <;> exact h

theorem update_ts_BalancesOk (m : List String) (ts : Timescale) (st : PlayerState)
    (msgs : List String) (h : BalancesOk st) : BalancesOk (update_ts m ts st msgs).1 := by
  rw [update_ts_eq]
  cases hc : activeChallenge st ts with
  | none => exact h
  | some ch =>
    simp only
    split_ifs with hcond
    · have hr : 0 ≤ ch.reward_value := by
        cases ts
        · exact rewardOk_some _ ch h.2.2.1 hc
        · exact rewardOk_some _ ch h.2.2.2 hc
      exact markCompleted_BalancesOk ts ch.id _ (grantReward_BalancesOk ch st h hr)
    · exact h

theorem update_challenge_progress_BalancesOk (st : PlayerState) (m : List String)
    (h : BalancesOk st) : BalancesOk (update_challenge_progress st m).1 := by
  unfold update_challenge_progress
  exact update_ts_BalancesOk m .weekly _ _ (update_ts_BalancesOk m .daily st [] h)

theorem collect_income_BalancesOk (now : ℚ) (perf : String → ℚ) (p : ℚ)
    (st : PlayerState) (h : BalancesOk st) : BalancesOk (collect_income now perf p st).state := by
  simp only [collect_income]
  split_ifs with h1 h2
  · exact h
  · apply update_challenge_progress_BalancesOk
    obtain ⟨hc, hp, hd, hw⟩ := h
    exact ⟨add_nonneg hc (le_of_lt (lt_trans (by norm_num) h1)), hp, hd, hw⟩
  · exact h

theorem upgrade_shop_BalancesOk (f : Bool) (st : PlayerState) (n : String)
    (h : BalancesOk st) : BalancesOk (upgrade_shop f st n).2 := by
  unfold upgrade_shop
  cases hc : lookupShop st.shops n with
  | none => exact h
  | some sh =>
    simp only
    obtain ⟨hcash, hp, hd, hw⟩ := h
    split_ifs with h1 h2
    · exact ⟨hcash, hp, hd, hw⟩
    · refine ⟨?_, hp, hd, hw⟩
      show 0 ≤ st.cash - get_upgrade_cost sh.level n
      linarith [not_lt.mp h1]
    · apply update_challenge_progress_BalancesOk
      refine ⟨?_, hp, hd, hw⟩
      show 0 ≤ st.cash - get_upgrade_cost sh.level n
      linarith [not_lt.mp h1]

theorem expand_shop_BalancesOk (now : ℚ) (st : PlayerState) (n : String)
    (h : BalancesOk st) : BalancesOk (expand_shop now st n).2 := by
  simp only [expand_shop]
  obtain ⟨hcash, hp, hd, hw⟩ := h
  split_ifs with h1 h2 h3 h4
  · exact ⟨hcash, hp, hd, hw⟩
  · exact ⟨hcash, hp, hd, hw⟩
  · exact ⟨hcash, hp, hd, hw⟩
  · apply update_challenge_progress_BalancesOk
    refine ⟨?_, hp, hd, hw⟩
    show 0 ≤ st.cash - get_expansion_cost n
    linarith [not_lt.mp h4]
  · exact ⟨hcash, hp, hd, hw⟩

theorem process_sabotage_BalancesOk (t : ℚ) (s b : Bool) (st : PlayerState)
    (h : BalancesOk st) : BalancesOk (process_sabotage t s b st) := by
  simp only [process_sabotage]
  obtain ⟨hcash, hp, hd, hw⟩ := h
  split_ifs with h1 h2 h3
  · exact ⟨hcash, hp, hd, hw⟩
  · exact ⟨hcash, hp, hd, hw⟩
  · have hcash2 : 0 ≤ st.cash - round2 (SABOTAGE_BASE_COST + st.cash * SABOTAGE_PCT_COST) :=
      sub_nonneg.mpr (not_lt.mp h2)
    cases hg : get_top_earning_shop st.shops with
    | none => exact ⟨hcash2, hp, hd, hw⟩
    | some shop =>
      simp only [hg, apply_shop_shutdown]
      split_ifs <;> exact ⟨hcash2, hp, hd, hw⟩
  · have hcash2 : 0 ≤ st.cash - round2 (SABOTAGE_BASE_COST + st.cash * SABOTAGE_PCT_COST) :=
      sub_nonneg.mpr (not_lt.mp h2)
    exact ⟨hcash2, hp, hd, hw⟩

theorem mafia_resolution_BalancesOk (c : MafiaChoice) (w : Bool) (ca d : ℚ)
    (st : PlayerState) (h : BalancesOk st) : BalancesOk (mafia_resolution c w ca d st).1 := by
  unfold mafia_resolution
  apply update_challenge_progress_BalancesOk
  obtain ⟨hcash, hp, hd, hw⟩ := h
  unfold BalancesOk
  cases c <;> cases w <;> split_ifs with h1 <;>
    refine ⟨?_, ?_, ?_, ?_⟩ <;>
    simp only <;>
    first
      | exact hp
      | exact hd
      | exact hw
      | (show (0:ℚ) ≤ st.cash; exact hcash)
      | nlinarith [hcash, le_max_left (0:ℚ) (ca - d)]

theorem generate_new_challenges_BalancesOk (now : ℚ) (tid : String) (st : PlayerState)
    (ts : Timescale) (h : BalancesOk st) :
    BalancesOk (generate_new_challenges now tid st ts) := by
  unfold generate_new_challenges
  cases hf : CHALLENGE_TYPES.find? (fun t => t.id == tid) with
  | none => exact h
  | some t =>
    simp only
    obtain ⟨hcash, hp, hd, hw⟩ := h
    obtain ⟨_, _, hbr, hrm⟩ := challenge_types_facts t (List.mem_of_find?_eq_some hf)
    have hr : 0 ≤ pyInt (t.base_reward * t.reward_mult ^ st.unlocked_achievements.length) :=
      pyInt_nonneg _ (mul_nonneg hbr.le (pow_nonneg hrm.le _))
    cases ts
    · exact ⟨hcash, hp, hr, hw⟩
    · exact ⟨hcash, hp, hd, hr⟩

theorem check_achievements_BalancesOk (st : PlayerState) (h : BalancesOk st) :
    BalancesOk (check_achievements st).1 := by
  have hch : (check_achievements st).1.cash = st.cash ∧
      (check_achievements st).1.pizza_coins = st.pizza_coins ∧
      (check_achievements st).1.daily_challenge = st.daily_challenge ∧
      (check_achievements st).1.weekly_challenge = st.weekly_challenge := by
    simp only [check_achievements]
    split_ifs <;> exact ⟨rfl, rfl, rfl, rfl⟩
  unfold BalancesOk
  rw [hch.1, hch.2.1, hch.2.2.1, hch.2.2.2]
  exact h

theorem credit_pizza_coins_BalancesOk (a : ℤ) (st : PlayerState) (h : BalancesOk st) :
    BalancesOk (credit_pizza_coins a st) := by
  unfold credit_pizza_coins
  obtain ⟨hcash, hp, hd, hw⟩ := h
  split_ifs with h1
  · exact ⟨hcash, hp, hd, hw⟩
  · exact ⟨hcash, add_nonneg hp (le_of_lt (not_le.mp h1)), hd, hw⟩

theorem step_BalancesOk (o : Op) (st : PlayerState) (h : BalancesOk st) :
    BalancesOk (step o st) := by
  cases o with
  | collect now perf p => exact collect_income_BalancesOk now perf p st h
  | upgrade f n => exact upgrade_shop_BalancesOk f st n h
  | expand now n => exact expand_shop_BalancesOk now st n h
  | sabotage t s b => exact process_sabotage_BalancesOk t s b st h
  | shakedown c w ca d => exact mafia_resolution_BalancesOk c w ca d st h
  | generate now tid ts => exact generate_new_challenges_BalancesOk now tid st ts h
  | checkAch => exact check_achievements_BalancesOk st h
  | credit a => exact credit_pizza_coins_BalancesOk a st h

theorem run_BalancesOk (ops : List Op) (st : PlayerState) (h : BalancesOk st) :
    BalancesOk (run ops st) := by
  induction ops generalizing st with
  | nil => exact h
  | cons o t ih =>
    unfold run at ih ⊢
    rw [List.foldl_cons]
    exact ih (step o st) (step_BalancesOk o st h)

/-- C1: starting from any record with nonnegative balances (and active
challenges carrying the nonnegative rewards the generator produces), every
sequence of engine operations (collect, upgrade, expand, sabotage
resolution, shakedown resolution, challenge evaluation and generation,
achievement check, premium-currency credit) keeps the cash and pizza-coin
balances nonnegative. -/
theorem c1_balances_never_negative (st : PlayerState) (ops : List Op)
    (hcash : 0 ≤ st.cash) (hcoins : 0 ≤ st.pizza_coins)
    (hd : rewardOk st.daily_challenge) (hw : rewardOk st.weekly_challenge) :
    0 ≤ (run ops st).cash ∧ 0 ≤ (run ops st).pizza_coins := by
  have h := run_BalancesOk ops st ⟨hcash, hcoins, hd, hw⟩
  exact ⟨h.1, h.2.1⟩

/-- The operation sequence of the C1 witness: one of each operation kind
run on a fresh record. -/
def c1_ops : List Op :=
  [Op.credit 5, Op.upgrade true "Brooklyn", Op.collect 100 perf1 (1/2),
   Op.sabotage 900 false true, Op.generate 0 "earn_cash" Timescale.daily,
   Op.checkAch, Op.shakedown MafiaChoice.pay true 10 5, Op.expand 100 "Albany"]

/-- Witness for C1: a fresh record run through one of each operation. -/
theorem c1_witness :
    0 ≤ (run c1_ops (get_default_player_state 0)).cash ∧
    0 ≤ (run c1_ops (get_default_player_state 0)).pizza_coins :=
  c1_balances_never_negative (get_default_player_state 0) c1_ops
    (by norm_num [get_default_player_state, INITIAL_CASH])
    (by norm_num [get_default_player_state])
    (by trivial) (by trivial)

end PizzaWars
